import Mathlib

/-!
Verification of the training/evaluation orchestration core of
`DD-Net-Pytorch/train.py`.

The pure content of the script is embedded shallowly:

* the learning-rate policy (`torch.optim.lr_scheduler.ReduceLROnPlateau`,
  configured on lines 238-239 of `train.py` with `factor=args.gamma`,
  `patience=5`, `cooldown=0.5`, `min_lr=5e-6`) as an explicit state machine
  over rationals;
* the training pass `train` and the evaluation pass `test` as folds over
  lists of batches, with the model, loss and optimizer kept opaque;
* the global `history` dictionary as a record of three lists;
* the top-level control flow of `main` (dataset-selector branch, CUDA probe,
  checkpoint saving, inference-timing loop) as an event trace.

Real numbers of the script are modelled by `ℚ`.
-/

namespace DDNet

/-! ## LR Scheduler Policy: `ReduceLROnPlateau`

State and step function of `torch.optim.lr_scheduler.ReduceLROnPlateau`
(mode `min`, `threshold_mode` `rel`, the PyTorch defaults used by the
script).  `best = none` stands for the initial `inf`. -/

structure SchedConfig where
  factor : ℚ
  patience : ℕ
  threshold : ℚ
  cooldown : ℚ
  minLr : ℚ
  eps : ℚ

structure SchedState where
  lr : ℚ
  best : Option ℚ
  numBad : ℕ
  cooldownCounter : ℚ

/-- `is_better(a, best)` for mode `min`, `threshold_mode` `rel`:
`a < best * (1 - threshold)`; any finite metric beats the initial `inf`. -/
def isBetter (c : SchedConfig) (a : ℚ) : Option ℚ → Bool
  | none => true
  | some best => decide (a < best * (1 - c.threshold))

/-- `_reduce_lr`: the new rate is `max(old_lr * factor, min_lr)`, applied
only when it differs from the old rate by more than `eps`. -/
def reduceLr (c : SchedConfig) (lr : ℚ) : ℚ :=
  if c.eps < lr - max (lr * c.factor) c.minLr then max (lr * c.factor) c.minLr
  else lr

/-- `num_bad_epochs` after the improvement test and the cooldown handling of
one `scheduler.step` call: a non-improving metric increments it, but it is
zeroed while the cooldown counter is positive. -/
def badAfter (c : SchedConfig) (s : SchedState) (m : ℚ) : ℕ :=
  if 0 < s.cooldownCounter then 0
  else if isBetter c m s.best then 0 else s.numBad + 1

/-- One `scheduler.step(metric)`: update `best`/`num_bad_epochs`, handle the
cooldown window (bad epochs are ignored while it is positive), then reduce
the rate when `num_bad_epochs > patience`. -/
def schedStep (c : SchedConfig) (s : SchedState) (m : ℚ) : SchedState :=
  if c.patience < badAfter c s m then
    { lr := reduceLr c s.lr
      best := if isBetter c m s.best then some m else s.best
      numBad := 0
      cooldownCounter := c.cooldown }
  else
    { lr := s.lr
      best := if isBetter c m s.best then some m else s.best
      numBad := badAfter c s m
      cooldownCounter :=
        if 0 < s.cooldownCounter then s.cooldownCounter - 1
        else s.cooldownCounter }

/-- Fresh scheduler state: `best = inf`, no bad epochs, no cooldown. -/
def schedInit (lr0 : ℚ) : SchedState :=
  { lr := lr0, best := none, numBad := 0, cooldownCounter := 0 }

/-- The configuration built on lines 238-239 of `train.py`:
`factor=args.gamma, patience=5, cooldown=0.5, min_lr=5e-6` together with the
PyTorch defaults `threshold=1e-4` and `eps=1e-8`. -/
def trainSchedConfig (gamma : ℚ) : SchedConfig :=
  { factor := gamma
    patience := 5
    threshold := 1/10000
    cooldown := 1/2
    minLr := 5/1000000
    eps := 1/100000000 }

/-- Learning rates observed after each call to `scheduler.step`. -/
def lrTrace (c : SchedConfig) (s : SchedState) : List ℚ → List ℚ
  | [] => []
  | m :: ms => (schedStep c s m).lr :: lrTrace c (schedStep c s m) ms

lemma reduceLr_le {c : SchedConfig} {lr : ℚ} (hf : c.factor ≤ 1)
    (h0 : 0 ≤ c.minLr) (h : c.minLr ≤ lr) : reduceLr c lr ≤ lr := by
  unfold reduceLr
  have hlr : 0 ≤ lr := le_trans h0 h
  have hmul : lr * c.factor ≤ lr := by
    calc lr * c.factor ≤ lr * 1 := by
          exact mul_le_mul_of_nonneg_left hf hlr
      _ = lr := mul_one lr
  split
  · exact max_le hmul h
  · exact le_rfl

lemma minLr_le_reduceLr {c : SchedConfig} {lr : ℚ} (h : c.minLr ≤ lr) :
    c.minLr ≤ reduceLr c lr := by
  unfold reduceLr
  split
  · exact le_max_right _ _
  · exact h

lemma schedStep_lr_eq (c : SchedConfig) (s : SchedState) (m : ℚ) :
    (schedStep c s m).lr = s.lr ∨ (schedStep c s m).lr = reduceLr c s.lr := by
  unfold schedStep
  split
  · exact Or.inr rfl
  · exact Or.inl rfl

lemma schedStep_lr_le {c : SchedConfig} {s : SchedState} (m : ℚ)
    (hf : c.factor ≤ 1) (h0 : 0 ≤ c.minLr) (h : c.minLr ≤ s.lr) :
    (schedStep c s m).lr ≤ s.lr := by
  rcases schedStep_lr_eq c s m with heq | heq
  · rw [heq]
  · rw [heq]; exact reduceLr_le hf h0 h

lemma minLr_le_schedStep {c : SchedConfig} {s : SchedState} (m : ℚ)
    (h : c.minLr ≤ s.lr) : c.minLr ≤ (schedStep c s m).lr := by
  rcases schedStep_lr_eq c s m with heq | heq
  · rw [heq]; exact h
  · rw [heq]; exact minLr_le_reduceLr h

lemma lrTrace_chain_and_floor {c : SchedConfig} (hf : c.factor ≤ 1)
    (h0 : 0 ≤ c.minLr) :
    ∀ (ms : List ℚ) (s : SchedState), c.minLr ≤ s.lr →
      List.Chain' (fun a b => b ≤ a) (s.lr :: lrTrace c s ms) ∧
      ∀ x ∈ lrTrace c s ms, c.minLr ≤ x := by
  intro ms
  induction ms with
  | nil => intro s _; exact ⟨List.chain'_singleton _, by intro x hx; cases hx⟩
  | cons m ms ih =>
      intro s hs
      have hstep : c.minLr ≤ (schedStep c s m).lr := minLr_le_schedStep m hs
      obtain ⟨hchain, hfloor⟩ := ih (schedStep c s m) hstep
      constructor
      · exact List.Chain'.cons (schedStep_lr_le m hf h0 hs) hchain
      · intro x hx
        rcases List.mem_cons.mp hx with rfl | hx
        · exact hstep
        · exact hfloor x hx

/-- C1: with the scheduler configured as on lines 238-239 of `train.py`
(`factor=gamma` with `gamma < 1` as `ReduceLROnPlateau` itself requires,
`patience=5`, `cooldown=0.5`, `min_lr=5e-6`) and an initial learning rate at
or above the floor, the learning rate after each `scheduler.step` is
monotonically non-increasing across any sequence of training-loss metrics
and never falls below `5e-6`. -/
theorem scheduler_lr_monotone_and_floored (gamma lr0 : ℚ) (metrics : List ℚ)
    (hγ : gamma < 1) (h0 : 5/1000000 ≤ lr0) :
    List.Chain' (fun a b => b ≤ a)
      (lr0 :: lrTrace (trainSchedConfig gamma) (schedInit lr0) metrics) ∧
    ∀ x ∈ lrTrace (trainSchedConfig gamma) (schedInit lr0) metrics,
      5/1000000 ≤ x := by
  have hf : (trainSchedConfig gamma).factor ≤ 1 := le_of_lt hγ
  have hmin : (0:ℚ) ≤ (trainSchedConfig gamma).minLr := by norm_num [trainSchedConfig]
  have h := lrTrace_chain_and_floor hf hmin metrics (schedInit lr0) h0
  exact h

/-- Witness for C1 at `gamma = 1/2`, `lr0 = 1/100`,
`metrics = [3, 2, 2, 2, 2, 2, 2, 2]`. -/
theorem scheduler_lr_monotone_and_floored_witness :
    (1:ℚ)/2 < 1 ∧ (5:ℚ)/1000000 ≤ 1/100 ∧
    (List.Chain' (fun a b => b ≤ a)
        ((1:ℚ)/100 ::
          lrTrace (trainSchedConfig (1/2)) (schedInit (1/100))
            [3, 2, 2, 2, 2, 2, 2, 2]) ∧
      ∀ x ∈ lrTrace (trainSchedConfig (1/2)) (schedInit (1/100))
          [3, 2, 2, 2, 2, 2, 2, 2], (5:ℚ)/1000000 ≤ x) :=
  ⟨by norm_num, by norm_num,
    scheduler_lr_monotone_and_floored (1/2) (1/100)
      [3, 2, 2, 2, 2, 2, 2, 2] (by norm_num) (by norm_num)⟩

lemma trainSchedConfig_patience (g : ℚ) : (trainSchedConfig g).patience = 5 := rfl

lemma trainSchedConfig_cooldown (g : ℚ) : (trainSchedConfig g).cooldown = 1/2 := rfl

lemma trainSchedConfig_minLr (g : ℚ) : (trainSchedConfig g).minLr = 5/1000000 := rfl

lemma trainSchedConfig_eps (g : ℚ) : (trainSchedConfig g).eps = 1/100000000 := rfl

lemma trainSchedConfig_factor (g : ℚ) : (trainSchedConfig g).factor = g := rfl

lemma isBetter_none (c : SchedConfig) (a : ℚ) : isBetter c a none = true := rfl

/-- C2: with the scheduler configured as in the code (`patience=5`,
`cooldown=0.5`, `factor=gamma` at its default `0.5`, initial rate `0.01`),
after one metric `v0` establishes the best loss, six consecutive
non-improving metrics trigger exactly one reduction by the factor (at the
sixth, `0.01` becomes `0.005`), and a seventh non-improving metric arriving
during the cooldown triggers no further reduction. -/
theorem scheduler_patience_cooldown_single_reduction
    (v0 v1 v2 v3 v4 v5 v6 v7 : ℚ)
    (h1 : isBetter (trainSchedConfig (1/2)) v1 (some v0) = false)
    (h2 : isBetter (trainSchedConfig (1/2)) v2 (some v0) = false)
    (h3 : isBetter (trainSchedConfig (1/2)) v3 (some v0) = false)
    (h4 : isBetter (trainSchedConfig (1/2)) v4 (some v0) = false)
    (h5 : isBetter (trainSchedConfig (1/2)) v5 (some v0) = false)
    (h6 : isBetter (trainSchedConfig (1/2)) v6 (some v0) = false)
    (h7 : isBetter (trainSchedConfig (1/2)) v7 (some v0) = false) :
    lrTrace (trainSchedConfig (1/2)) (schedInit (1/100))
        [v0, v1, v2, v3, v4, v5, v6, v7]
      = [1/100, 1/100, 1/100, 1/100, 1/100, 1/100, 1/200, 1/200] := by
  norm_num [lrTrace, schedStep, badAfter, reduceLr, schedInit, isBetter_none,
    trainSchedConfig_patience, trainSchedConfig_cooldown, trainSchedConfig_minLr,
    trainSchedConfig_eps, trainSchedConfig_factor, h1, h2, h3, h4, h5, h6, h7,
    max_def]

/-- Witness for C2 at `v0 = … = v7 = 1`. -/
theorem scheduler_patience_cooldown_single_reduction_witness :
    isBetter (trainSchedConfig (1/2)) 1 (some 1) = false ∧
    lrTrace (trainSchedConfig (1/2)) (schedInit (1/100))
        [1, 1, 1, 1, 1, 1, 1, 1]
      = [1/100, 1/100, 1/100, 1/100, 1/100, 1/100, 1/200, 1/200] := by
  have h : isBetter (trainSchedConfig (1/2)) 1 (some 1) = false := by
    norm_num [isBetter, trainSchedConfig]
  exact ⟨h, scheduler_patience_cooldown_single_reduction
    1 1 1 1 1 1 1 1 h h h h h h h⟩

/-! ## Training Loop

`train(args, model, device, train_loader, optimizer, epoch, criterion)`
(lines 37-71).  The model, optimizer and criterion are opaque: a parameter
state `P`, a per-batch loss `lossFn p b` (the scalar
`criterion(model(M, P), target)` under the current parameters) and one
optimizer step `stepFn p b` (the parameter update produced by
`zero_grad; backward; step` on that batch).  The per-batch side effects are
recorded as an event trace in source order. -/

inductive TrainEvent where
  | toDevice (i : ℕ)
  | zeroGrad (i : ℕ)
  | forward (i : ℕ)
  | lossAcc (i : ℕ)
  | backward (i : ℕ)
  | optStep (i : ℕ)
  | logProgress (i : ℕ)
deriving DecidableEq

/-- The side effects of one loop body iteration, in the order of
lines 50-61: move the three tensors to the device, `optimizer.zero_grad()`,
forward pass, loss computation and accumulation, `loss.backward()`,
`optimizer.step()`. -/
def batchEvents (i : ℕ) : List TrainEvent :=
  [.toDevice i, .zeroGrad i, .forward i, .lossAcc i, .backward i, .optStep i]

structure TrainResult (P : Type) where
  params : P
  lossSum : ℚ
  processed : ℕ
  events : List TrainEvent

/-- The `for batch_idx, (data1, data2, target) in enumerate(train_loader)`
loop: process the batch, then every `log_interval` batches log progress and,
in dry-run mode, break out of the loop. -/
def trainLoop {P B : Type} (logInterval : ℕ) (dryRun : Bool)
    (lossFn : P → B → ℚ) (stepFn : P → B → P) :
    List B → ℕ → P → ℚ → ℕ → List TrainEvent → TrainResult P
  | [], _, p, acc, n, evs => ⟨p, acc, n, evs⟩
  | b :: rest, i, p, acc, n, evs =>
    let acc2 := acc + lossFn p b
    let p2 := stepFn p b
    if i % logInterval = 0 then
      if dryRun then ⟨p2, acc2, n + 1, evs ++ batchEvents i ++ [.logProgress i]⟩
      else trainLoop logInterval dryRun lossFn stepFn rest (i + 1) p2 acc2 (n + 1)
        (evs ++ batchEvents i ++ [.logProgress i])
    else trainLoop logInterval dryRun lossFn stepFn rest (i + 1) p2 acc2 (n + 1)
      (evs ++ batchEvents i)

/-- One call of `train`: the whole pass starting from batch index 0 with a
zero running loss (`train_loss = 0`, line 44); returns the accumulated
`train_loss`. -/
def trainPass {P B : Type} (logInterval : ℕ) (dryRun : Bool)
    (lossFn : P → B → ℚ) (stepFn : P → B → P) (p0 : P) (batches : List B) :
    TrainResult P :=
  trainLoop logInterval dryRun lossFn stepFn batches 0 p0 0 0 []

/-- Per-batch loss values along the pass: each batch's loss is evaluated at
the parameters produced by the optimizer steps on the preceding batches. -/
def lossesAlong {P B : Type} (lossFn : P → B → ℚ) (stepFn : P → B → P) :
    P → List B → List ℚ
  | _, [] => []
  | p, b :: rest => lossFn p b :: lossesAlong lossFn stepFn (stepFn p b) rest

/-- Expected event trace for `k` batches starting at index `i`: the six
per-batch effects in order, plus a progress log every `logInterval`
batches. -/
def expectedEvents (logInterval : ℕ) : ℕ → ℕ → List TrainEvent
  | _, 0 => []
  | i, k + 1 =>
      (batchEvents i ++ if i % logInterval = 0 then [.logProgress i] else []) ++
        expectedEvents logInterval (i + 1) k

lemma trainLoop_not_dry {P B : Type} (li : ℕ) (lossFn : P → B → ℚ)
    (stepFn : P → B → P) :
    ∀ (batches : List B) (i : ℕ) (p : P) (acc : ℚ) (n : ℕ)
      (evs : List TrainEvent),
      trainLoop li false lossFn stepFn batches i p acc n evs =
        ⟨batches.foldl stepFn p,
         acc + (lossesAlong lossFn stepFn p batches).sum,
         n + batches.length,
         evs ++ expectedEvents li i batches.length⟩ := by
  intro batches
  induction batches with
  | nil => intro i p acc n evs; simp [trainLoop, lossesAlong, expectedEvents]
  | cons b rest ih =>
      intro i p acc n evs
      by_cases h : i % li = 0
      · simp only [trainLoop, if_pos h, if_neg (Bool.false_ne_true), ih,
          List.foldl_cons, lossesAlong, List.sum_cons, List.length_cons,
          expectedEvents, if_pos h, TrainResult.mk.injEq]
        exact ⟨trivial, by ring, by omega, by simp [List.append_assoc]⟩
      · simp only [trainLoop, if_neg h, ih, List.foldl_cons, lossesAlong,
          List.sum_cons, List.length_cons, expectedEvents, if_neg h,
          TrainResult.mk.injEq]
        exact ⟨trivial, by ring, by omega, by simp [List.append_assoc]⟩

/-- C3: one call of `train` without dry-run performs, for each batch in
order, the six per-batch effects (device transfer, gradient reset, forward
pass, loss computation, backpropagation, exactly one optimizer step —
`processed` and the event trace count one `optStep` per batch), and returns
the running sum of the per-batch losses over the whole pass, not an
average. -/
theorem train_pass_sums_losses_one_step_per_batch {P B : Type}
    (li : ℕ) (lossFn : P → B → ℚ) (stepFn : P → B → P) (p0 : P)
    (batches : List B) :
    trainPass li false lossFn stepFn p0 batches =
      ⟨batches.foldl stepFn p0,
       (lossesAlong lossFn stepFn p0 batches).sum,
       batches.length,
       expectedEvents li 0 batches.length⟩ := by
  unfold trainPass
  rw [trainLoop_not_dry]
  simp

/-- C6: in dry-run mode the pass aborts at the first log point, which is
batch index 0 (`0 % log_interval == 0`), so at most one batch — in
particular no more than `log_interval + 1` batches — is processed, and the
returned loss sum is the (finite) sum over the processed prefix. -/
theorem train_dry_run_aborts_at_first_log_point {P B : Type}
    (li : ℕ) (lossFn : P → B → ℚ) (stepFn : P → B → P) (p0 : P)
    (batches : List B) (hli : 0 < li) :
    (trainPass li true lossFn stepFn p0 batches).processed
        = min 1 batches.length ∧
    (trainPass li true lossFn stepFn p0 batches).processed ≤ li + 1 ∧
    (trainPass li true lossFn stepFn p0 batches).lossSum
        = (lossesAlong lossFn stepFn p0 (batches.take 1)).sum := by
  cases batches with
  | nil => refine ⟨rfl, by simp [trainPass, trainLoop], rfl⟩
  | cons b rest =>
      have h0 : 0 % li = 0 := Nat.zero_mod li
      refine ⟨?_, ?_, ?_⟩ <;>
        simp [trainPass, trainLoop, h0, lossesAlong]

/-- Witness for C6 at `log_interval = 2` and three batches. -/
theorem train_dry_run_aborts_at_first_log_point_witness :
    0 < 2 ∧
    ((trainPass 2 true (fun (_ : ℕ) (_ : ℕ) => (2 : ℚ))
          (fun p _ => p + 1) 0 [5, 6, 7]).processed
        = min 1 ([5, 6, 7] : List ℕ).length ∧
      (trainPass 2 true (fun (_ : ℕ) (_ : ℕ) => (2 : ℚ))
          (fun p _ => p + 1) 0 [5, 6, 7]).processed ≤ 2 + 1 ∧
      (trainPass 2 true (fun (_ : ℕ) (_ : ℕ) => (2 : ℚ))
          (fun p _ => p + 1) 0 [5, 6, 7]).lossSum
        = (lossesAlong (fun _ _ => (2 : ℚ)) (fun p _ => p + 1) 0
            (([5, 6, 7] : List ℕ).take 1)).sum) :=
  ⟨by norm_num,
    train_dry_run_aborts_at_first_log_point 2 (fun _ _ => (2 : ℚ))
      (fun p _ => p + 1) 0 [5, 6, 7] (by norm_num)⟩

/-! ## Evaluation Loop

`test(model, device, test_loader)` (lines 73-98).  The network in eval mode
is an opaque deterministic map from a test example to its per-class score
vector; `nn.CrossEntropyLoss(reduction='sum')` means the loss of a batch is
the sum of an opaque per-example loss, so the criterion is embedded as a
per-example loss function.  An example is a pair of an opaque input and its
integer label. -/

/-- Helper for `argmaxIdx`: scan the remaining scores, keeping the first
index attaining the running maximum. -/
def argmaxGo (bi : ℕ) (bv : ℚ) (i : ℕ) : List ℚ → ℕ
  | [] => bi
  | x :: xs => if bv < x then argmaxGo i x (i + 1) xs else argmaxGo bi bv (i + 1) xs

/-- `output.argmax(dim=1)` for one example: the index of the maximum score,
the first such index in case of ties. -/
def argmaxIdx : List ℚ → ℕ
  | [] => 0
  | x :: xs => argmaxGo 0 x 1 xs

/-- `pred.eq(target.view_as(pred)).sum().item()` for one batch: the number
of examples whose predicted class equals the label. -/
def batchCorrect {ι : Type} (model : ι → List ℚ) (batch : List (ι × ℕ)) : ℕ :=
  (batch.map (fun ex => if argmaxIdx (model ex.1) = ex.2 then 1 else 0)).sum

/-- `criterion(output, target).item()` with `reduction='sum'`: the summed
per-example loss over the batch. -/
def batchLossSum {ι : Type} (lossEx : ι × ℕ → ℚ) (batch : List (ι × ℕ)) : ℚ :=
  (batch.map lossEx).sum

structure TestResult where
  avgLoss : ℚ
  accuracy : ℚ

/-- One call of `test`: accumulate summed loss and correct count over the
batches, then divide both by the dataset size
(`len(test_loader.dataset)`, the total number of examples). -/
def testPass {ι : Type} (model : ι → List ℚ) (lossEx : ι × ℕ → ℚ)
    (batches : List (List (ι × ℕ))) : TestResult :=
  let totals := batches.foldl
    (fun acc batch =>
      (acc.1 + batchLossSum lossEx batch, acc.2 + batchCorrect model batch))
    ((0 : ℚ), (0 : ℕ))
  let n : ℕ := (batches.map List.length).sum
  { avgLoss := totals.1 / n, accuracy := (totals.2 : ℚ) / n }

lemma testPass_totals {ι : Type} (model : ι → List ℚ) (lossEx : ι × ℕ → ℚ)
    (batches : List (List (ι × ℕ))) :
    ∀ (a : ℚ) (c : ℕ),
      batches.foldl
        (fun acc batch =>
          (acc.1 + batchLossSum lossEx batch, acc.2 + batchCorrect model batch))
        (a, c)
      = (a + (batches.map (batchLossSum lossEx)).sum,
         c + (batches.map (batchCorrect model)).sum) := by
  induction batches with
  | nil => intro a c; simp
  | cons b rest ih =>
      intro a c
      simp only [List.foldl_cons, List.map_cons, List.sum_cons, ih]
      rw [Prod.mk.injEq]
      exact ⟨by ring, by omega⟩

lemma testPass_avgLoss {ι : Type} (model : ι → List ℚ) (lossEx : ι × ℕ → ℚ)
    (batches : List (List (ι × ℕ))) :
    (testPass model lossEx batches).avgLoss
      = (batches.map (batchLossSum lossEx)).sum
          / ((batches.map List.length).sum : ℕ) := by
  unfold testPass
  rw [testPass_totals]
  simp

lemma testPass_accuracy {ι : Type} (model : ι → List ℚ) (lossEx : ι × ℕ → ℚ)
    (batches : List (List (ι × ℕ))) :
    (testPass model lossEx batches).accuracy
      = ((batches.map (batchCorrect model)).sum : ℚ)
          / ((batches.map List.length).sum : ℕ) := by
  unfold testPass
  rw [testPass_totals]
  simp

/-- C5: for a fixed deterministic model, the average loss reported by `test`
does not depend on how the test set is partitioned into batches: summing the
per-batch sum-reduced losses and dividing once by the dataset size gives the
same value as processing the whole set as a single batch. -/
theorem test_avg_loss_partition_invariant {ι : Type} (model : ι → List ℚ)
    (lossEx : ι × ℕ → ℚ) (batches : List (List (ι × ℕ))) :
    (testPass model lossEx batches).avgLoss
      = (testPass model lossEx [batches.flatten]).avgLoss := by
  rw [testPass_avgLoss, testPass_avgLoss]
  have hnum : (batches.map (batchLossSum lossEx)).sum
      = batchLossSum lossEx batches.flatten := by
    unfold batchLossSum
    rw [List.map_flatten, List.sum_flatten, List.map_map]
    rfl
  have hden : ((batches.map List.length).sum : ℕ)
      = batches.flatten.length := (List.length_flatten batches).symm
  rw [hnum, hden]
  simp

lemma sum_indicator_eq_length_filter {α : Type} (p : α → Prop)
    [DecidablePred p] (l : List α) :
    (l.map (fun x => if p x then (1 : ℕ) else 0)).sum
      = (l.filter (fun x => decide (p x))).length := by
  induction l with
  | nil => rfl
  | cons a l ih => by_cases h : p a <;> simp [h, ih, Nat.add_comm]

/-- C4: `test` predicts the class of each example as the index of the
maximum score, counts predictions equal to the label, and reports accuracy
as that count over the dataset size; on a 10-example set where the model
always predicts class 0 and exactly 3 labels are 0, the accuracy is exactly
`3/10`. -/
theorem test_accuracy_all_pred_zero {ι : Type} (model : ι → List ℚ)
    (lossEx : ι × ℕ → ℚ) (batches : List (List (ι × ℕ)))
    (hN : batches.flatten.length = 10)
    (hpred : ∀ ex ∈ batches.flatten, argmaxIdx (model ex.1) = 0)
    (hlab : (batches.flatten.filter (fun ex => ex.2 = 0)).length = 3) :
    (testPass model lossEx batches).accuracy = 3/10 := by
  rw [testPass_accuracy]
  have hcorr : (batches.map (batchCorrect model)).sum
      = batchCorrect model batches.flatten := by
    unfold batchCorrect
    rw [List.map_flatten, List.sum_flatten, List.map_map]
    rfl
  have hc3 : batchCorrect model batches.flatten = 3 := by
    unfold batchCorrect
    have hmapeq : batches.flatten.map
          (fun ex => if argmaxIdx (model ex.1) = ex.2 then (1 : ℕ) else 0)
        = batches.flatten.map (fun ex => if (0 : ℕ) = ex.2 then 1 else 0) := by
      refine List.map_congr_left ?_
      intro ex hex
      rw [hpred ex hex]
    rw [hmapeq,
      sum_indicator_eq_length_filter (fun ex : ι × ℕ => (0 : ℕ) = ex.2)
        batches.flatten]
    have heq : (batches.flatten.filter (fun ex : ι × ℕ => decide ((0 : ℕ) = ex.2)))
        = (batches.flatten.filter (fun ex : ι × ℕ => ex.2 = 0)) := by
      refine List.filter_congr ?_
      intro ex _
      simp [eq_comm]
    rw [heq, hlab]
  have hden : (batches.map List.length).sum = 10 := by
    rw [← List.length_flatten]
    exact hN
  rw [hcorr, hc3, hden]
  norm_num

/-- Witness for C4: two batches of five examples over scores `[1, 0]`
(argmax index 0), labels `0,0,0,1,1` and `1,1,1,1,1`. -/
theorem test_accuracy_all_pred_zero_witness :
    (([[((0:ℕ),(0:ℕ)),(1,0),(2,0),(3,1),(4,1)],
       [(5,1),(6,1),(7,1),(8,1),(9,1)]] : List (List (ℕ × ℕ))).flatten.length
        = 10 ∧
      (∀ ex ∈ ([[((0:ℕ),(0:ℕ)),(1,0),(2,0),(3,1),(4,1)],
          [(5,1),(6,1),(7,1),(8,1),(9,1)]] : List (List (ℕ × ℕ))).flatten,
        argmaxIdx ((fun _ => [(1:ℚ), 0]) ex.1) = 0) ∧
      (([[((0:ℕ),(0:ℕ)),(1,0),(2,0),(3,1),(4,1)],
          [(5,1),(6,1),(7,1),(8,1),(9,1)]] : List (List (ℕ × ℕ))).flatten.filter
        (fun ex => ex.2 = 0)).length = 3) ∧
    (testPass (fun _ => [(1:ℚ), 0]) (fun _ => (0:ℚ))
        [[((0:ℕ),(0:ℕ)),(1,0),(2,0),(3,1),(4,1)],
         [(5,1),(6,1),(7,1),(8,1),(9,1)]]).accuracy = 3/10 := by
  have hN : (([[((0:ℕ),(0:ℕ)),(1,0),(2,0),(3,1),(4,1)],
      [(5,1),(6,1),(7,1),(8,1),(9,1)]] : List (List (ℕ × ℕ))).flatten.length
        = 10) := by decide
  have hpred : ∀ ex ∈ ([[((0:ℕ),(0:ℕ)),(1,0),(2,0),(3,1),(4,1)],
      [(5,1),(6,1),(7,1),(8,1),(9,1)]] : List (List (ℕ × ℕ))).flatten,
      argmaxIdx ((fun _ => [(1:ℚ), 0]) ex.1) = 0 := by
    intro ex _
    show argmaxIdx [(1:ℚ), 0] = 0
    norm_num [argmaxIdx, argmaxGo]
  have hlab : (([[((0:ℕ),(0:ℕ)),(1,0),(2,0),(3,1),(4,1)],
      [(5,1),(6,1),(7,1),(8,1),(9,1)]] : List (List (ℕ × ℕ))).flatten.filter
        (fun ex => ex.2 = 0)).length = 3 := by decide
  exact ⟨⟨hN, hpred, hlab⟩,
    test_accuracy_all_pred_zero (fun _ => [(1:ℚ), 0]) (fun _ => (0:ℚ)) _
      hN hpred hlab⟩

/-! ## History Recorder

The global `history` dictionary (lines 31-35) with its three per-epoch
series.  `train` appends the epoch's summed training loss (line 70), `test`
appends the average test loss and the accuracy (lines 92-93); the epoch loop
of `main` (lines 240-244) alternates the two passes.  These two passes are
the only writers. -/

structure History where
  train_loss : List ℚ
  test_loss : List ℚ
  test_acc : List ℚ

/-- `train` as called once per epoch: run the pass, append the loss sum to
`history['train_loss']`, and hand back the updated parameters. -/
def trainEpochRun {P B : Type} (li : ℕ) (dry : Bool) (lossFn : P → B → ℚ)
    (stepFn : P → B → P) (batches : List B) (p : P) (h : History) :
    P × History :=
  let r := trainPass li dry lossFn stepFn p batches
  (r.params, { h with train_loss := h.train_loss ++ [r.lossSum] })

/-- `test` as called once per epoch: run the pass and append the average
loss and the accuracy to `history['test_loss']` / `history['test_acc']`. -/
def testEpochRun {P ι : Type} (model : P → ι → List ℚ)
    (lossEx : P → ι × ℕ → ℚ) (batches : List (List (ι × ℕ))) (p : P)
    (h : History) : History :=
  let r := testPass (model p) (lossEx p) batches
  { h with test_loss := h.test_loss ++ [r.avgLoss],
           test_acc := h.test_acc ++ [r.accuracy] }

/-- One iteration of the epoch loop of `main`: `train` then `test`. -/
def epochStep {P B ι : Type} (li : ℕ) (dry : Bool) (lossFn : P → B → ℚ)
    (stepFn : P → B → P) (trainB : List B) (model : P → ι → List ℚ)
    (lossEx : P → ι × ℕ → ℚ) (testB : List (List (ι × ℕ)))
    (st : P × History) : P × History :=
  let pr := trainEpochRun li dry lossFn stepFn trainB st.1 st.2
  (pr.1, testEpochRun model lossEx testB pr.1 pr.2)

/-- `for epoch in range(1, args.epochs + 1)`: iterate the epoch step. -/
def runEpochs {P B ι : Type} (li : ℕ) (dry : Bool) (lossFn : P → B → ℚ)
    (stepFn : P → B → P) (trainB : List B) (model : P → ι → List ℚ)
    (lossEx : P → ι × ℕ → ℚ) (testB : List (List (ι × ℕ))) :
    ℕ → P × History → P × History
  | 0, st => st
  | n + 1, st => runEpochs li dry lossFn stepFn trainB model lossEx testB n
      (epochStep li dry lossFn stepFn trainB model lossEx testB st)

section HistoryLemmas

variable {P B ι : Type} (li : ℕ) (dry : Bool) (lossFn : P → B → ℚ)
  (stepFn : P → B → P) (trainB : List B) (model : P → ι → List ℚ)
  (lossEx : P → ι × ℕ → ℚ) (testB : List (List (ι × ℕ)))

lemma epochStep_lengths (st : P × History) :
    ((epochStep li dry lossFn stepFn trainB model lossEx testB st).2.train_loss.length
        = st.2.train_loss.length + 1) ∧
    ((epochStep li dry lossFn stepFn trainB model lossEx testB st).2.test_loss.length
        = st.2.test_loss.length + 1) ∧
    ((epochStep li dry lossFn stepFn trainB model lossEx testB st).2.test_acc.length
        = st.2.test_acc.length + 1) := by
  simp [epochStep, trainEpochRun, testEpochRun]

lemma runEpochs_lengths :
    ∀ (n : ℕ) (st : P × History),
      ((runEpochs li dry lossFn stepFn trainB model lossEx testB n st).2.train_loss.length
          = st.2.train_loss.length + n) ∧
      ((runEpochs li dry lossFn stepFn trainB model lossEx testB n st).2.test_loss.length
          = st.2.test_loss.length + n) ∧
      ((runEpochs li dry lossFn stepFn trainB model lossEx testB n st).2.test_acc.length
          = st.2.test_acc.length + n) := by
  intro n
  induction n with
  | zero => intro st; simp [runEpochs]
  | succ n ih =>
      intro st
      obtain ⟨l1, l2, l3⟩ :=
        ih (epochStep li dry lossFn stepFn trainB model lossEx testB st)
      obtain ⟨e1, e2, e3⟩ :=
        epochStep_lengths li dry lossFn stepFn trainB model lossEx testB st
      refine ⟨?_, ?_, ?_⟩ <;> simp [runEpochs, l1, l2, l3, e1, e2, e3] <;> omega

lemma runEpochs_history_extends :
    ∀ (n : ℕ) (st : P × History),
      st.2.train_loss
          <+: (runEpochs li dry lossFn stepFn trainB model lossEx testB n st).2.train_loss ∧
      st.2.test_loss
          <+: (runEpochs li dry lossFn stepFn trainB model lossEx testB n st).2.test_loss ∧
      st.2.test_acc
          <+: (runEpochs li dry lossFn stepFn trainB model lossEx testB n st).2.test_acc := by
  intro n
  induction n with
  | zero =>
      intro st
      exact ⟨List.prefix_rfl, List.prefix_rfl, List.prefix_rfl⟩
  | succ n ih =>
      intro st
      obtain ⟨p1, p2, p3⟩ :=
        ih (epochStep li dry lossFn stepFn trainB model lossEx testB st)
      have e1 : st.2.train_loss
          <+: (epochStep li dry lossFn stepFn trainB model lossEx testB st).2.train_loss := by
        simp [epochStep, trainEpochRun, testEpochRun]
      have e2 : st.2.test_loss
          <+: (epochStep li dry lossFn stepFn trainB model lossEx testB st).2.test_loss := by
        simp [epochStep, trainEpochRun, testEpochRun]
      have e3 : st.2.test_acc
          <+: (epochStep li dry lossFn stepFn trainB model lossEx testB st).2.test_acc := by
        simp [epochStep, trainEpochRun, testEpochRun]
      exact ⟨e1.trans (by simpa [runEpochs] using p1),
        e2.trans (by simpa [runEpochs] using p2),
        e3.trans (by simpa [runEpochs] using p3)⟩

end HistoryLemmas

/-- C9: the history is append-only: after `n` completed epochs each of the
three series has exactly `n` new entries (one per epoch, appended only by
the training pass and the evaluation pass, which are the only writers in the
epoch loop), and the history committed after any earlier epoch `m ≤ n` is a
prefix of the history after epoch `n` — no committed entry is ever
mutated. -/
theorem history_append_only_one_entry_per_epoch {P B ι : Type} (li : ℕ)
    (dry : Bool) (lossFn : P → B → ℚ) (stepFn : P → B → P) (trainB : List B)
    (model : P → ι → List ℚ) (lossEx : P → ι × ℕ → ℚ)
    (testB : List (List (ι × ℕ))) (n m : ℕ) (hmn : m ≤ n) (p0 : P)
    (h0 : History) :
    ((runEpochs li dry lossFn stepFn trainB model lossEx testB n (p0, h0)).2.train_loss.length
        = h0.train_loss.length + n ∧
      (runEpochs li dry lossFn stepFn trainB model lossEx testB n (p0, h0)).2.test_loss.length
        = h0.test_loss.length + n ∧
      (runEpochs li dry lossFn stepFn trainB model lossEx testB n (p0, h0)).2.test_acc.length
        = h0.test_acc.length + n) ∧
    ((runEpochs li dry lossFn stepFn trainB model lossEx testB m (p0, h0)).2.train_loss
        <+: (runEpochs li dry lossFn stepFn trainB model lossEx testB n (p0, h0)).2.train_loss ∧
      (runEpochs li dry lossFn stepFn trainB model lossEx testB m (p0, h0)).2.test_loss
        <+: (runEpochs li dry lossFn stepFn trainB model lossEx testB n (p0, h0)).2.test_loss ∧
      (runEpochs li dry lossFn stepFn trainB model lossEx testB m (p0, h0)).2.test_acc
        <+: (runEpochs li dry lossFn stepFn trainB model lossEx testB n (p0, h0)).2.test_acc) := by
  have hsplit : ∀ (a b : ℕ) (st : P × History),
      runEpochs li dry lossFn stepFn trainB model lossEx testB (b + a) st
        = runEpochs li dry lossFn stepFn trainB model lossEx testB a
            (runEpochs li dry lossFn stepFn trainB model lossEx testB b st) := by
    intro a b
    induction b with
    | zero => intro st; simp [runEpochs]
    | succ b ih =>
        intro st
        have : b + 1 + a = (b + a) + 1 := by omega
        rw [this]
        simp only [runEpochs]
        rw [ih]
  refine ⟨runEpochs_lengths li dry lossFn stepFn trainB model lossEx testB n (p0, h0), ?_⟩
  have hn : n = m + (n - m) := by omega
  rw [hn, hsplit (n - m) m (p0, h0)]
  exact runEpochs_history_extends li dry lossFn stepFn trainB model lossEx testB
    (n - m) _

/-- Witness for C9 at `n = 2`, `m = 1` with trivial model, loss and data. -/
theorem history_append_only_one_entry_per_epoch_witness :
    (1 : ℕ) ≤ 2 ∧
    (((runEpochs 1 false (fun (_ : ℕ) (_ : ℕ) => (1:ℚ)) (fun p _ => p) [0]
          (fun _ _ => [(1:ℚ)]) (fun _ _ => (1:ℚ)) [[((0:ℕ),(0:ℕ))]] 2
          (0, ⟨[], [], []⟩)).2.train_loss.length
        = (⟨[], [], []⟩ : History).train_loss.length + 2 ∧
      (runEpochs 1 false (fun (_ : ℕ) (_ : ℕ) => (1:ℚ)) (fun p _ => p) [0]
          (fun _ _ => [(1:ℚ)]) (fun _ _ => (1:ℚ)) [[((0:ℕ),(0:ℕ))]] 2
          (0, ⟨[], [], []⟩)).2.test_loss.length
        = (⟨[], [], []⟩ : History).test_loss.length + 2 ∧
      (runEpochs 1 false (fun (_ : ℕ) (_ : ℕ) => (1:ℚ)) (fun p _ => p) [0]
          (fun _ _ => [(1:ℚ)]) (fun _ _ => (1:ℚ)) [[((0:ℕ),(0:ℕ))]] 2
          (0, ⟨[], [], []⟩)).2.test_acc.length
        = (⟨[], [], []⟩ : History).test_acc.length + 2) ∧
    ((runEpochs 1 false (fun (_ : ℕ) (_ : ℕ) => (1:ℚ)) (fun p _ => p) [0]
          (fun _ _ => [(1:ℚ)]) (fun _ _ => (1:ℚ)) [[((0:ℕ),(0:ℕ))]] 1
          (0, ⟨[], [], []⟩)).2.train_loss
        <+: (runEpochs 1 false (fun (_ : ℕ) (_ : ℕ) => (1:ℚ)) (fun p _ => p) [0]
          (fun _ _ => [(1:ℚ)]) (fun _ _ => (1:ℚ)) [[((0:ℕ),(0:ℕ))]] 2
          (0, ⟨[], [], []⟩)).2.train_loss ∧
      (runEpochs 1 false (fun (_ : ℕ) (_ : ℕ) => (1:ℚ)) (fun p _ => p) [0]
          (fun _ _ => [(1:ℚ)]) (fun _ _ => (1:ℚ)) [[((0:ℕ),(0:ℕ))]] 1
          (0, ⟨[], [], []⟩)).2.test_loss
        <+: (runEpochs 1 false (fun (_ : ℕ) (_ : ℕ) => (1:ℚ)) (fun p _ => p) [0]
          (fun _ _ => [(1:ℚ)]) (fun _ _ => (1:ℚ)) [[((0:ℕ),(0:ℕ))]] 2
          (0, ⟨[], [], []⟩)).2.test_loss ∧
      (runEpochs 1 false (fun (_ : ℕ) (_ : ℕ) => (1:ℚ)) (fun p _ => p) [0]
          (fun _ _ => [(1:ℚ)]) (fun _ _ => (1:ℚ)) [[((0:ℕ),(0:ℕ))]] 1
          (0, ⟨[], [], []⟩)).2.test_acc
        <+: (runEpochs 1 false (fun (_ : ℕ) (_ : ℕ) => (1:ℚ)) (fun p _ => p) [0]
          (fun _ _ => [(1:ℚ)]) (fun _ _ => (1:ℚ)) [[((0:ℕ),(0:ℕ))]] 2
          (0, ⟨[], [], []⟩)).2.test_acc)) :=
  ⟨by norm_num,
    history_append_only_one_entry_per_epoch 1 false
      (fun (_ : ℕ) (_ : ℕ) => (1:ℚ)) (fun p _ => p) [0]
      (fun _ _ => [(1:ℚ)]) (fun _ _ => (1:ℚ)) [[((0:ℕ),(0:ℕ))]] 2 1
      (by norm_num) 0 ⟨[], [], []⟩⟩

/-! ## Top-level control flow of `main`

The effectful skeleton of the script, as an event trace: the run directory
and log file are created at import time (lines 28-30); `main` then probes
CUDA with a dummy tensor whenever `torch.cuda.is_available()` (lines
135-141), branches on the dataset selector (lines 163-180, `sys.exit(1)` on
anything but 0/1/2), loads the data, runs the epoch loop, saves the
checkpoint under a hard-coded Windows directory when `args.save_model`
(lines 274-288), and finally, when `args.calc_time`, times inference on the
fixed backend list `['cpu', 'cuda']` (lines 290-329) — where
`tensor.to('cuda')` raises if CUDA is unavailable. -/

structure Args where
  dataset : ℤ
  epochs : ℕ
  saveModel : Bool
  calcTime : Bool

inductive Dev where
  | cpu
  | cuda
deriving DecidableEq

inductive Event where
  | mkRunDir
  | cudaProbeAlloc
  | loadData
  | trainEpoch (i : ℕ)
  | testEpoch (i : ℕ)
  | saveCheckpoint (path : List Char)
  | timeBackend (d : Dev)
deriving DecidableEq

inductive RunOutcome where
  | completed
  | exited (code : ℕ)
  | crashed (msg : List Char)
deriving DecidableEq

/-- argparse `store_true` action with a `default`: the stored value is the
default unless the flag appears on the command line, in which case `True`
is stored.  Lines 119-120 declare `--save-model` with
`action='store_true', default=True`. -/
def storeTrue (defaultVal : Bool) (present : Bool) : Bool :=
  if present then true else defaultVal

/-- The value of `args.save_model` as a function of whether `--save-model`
was passed. -/
def saveModelValue (present : Bool) : Bool := storeTrue true present

/-- `savedir = Path('experiments') / Path(str(int(time.time())))`
(line 28). -/
def runDirPath (timestamp : List Char) : List Char :=
  "experiments/".toList ++ timestamp

/-- The hard-coded checkpoint directory of line 276. -/
def weightsDir : List Char :=
  "D:\\NCKHSV.2024-2025\\MultiMediapipe\\DD-Net-Pytorch\\weights".toList

/-- `dataset_name` of line 280. -/
def datasetName (d : ℤ) : List Char :=
  if d = 0 then "JHMDB".toList
  else if d = 1 then "SHREC_coarse".toList
  else "SHREC_fine".toList

/-- `os.path.join(weights_dir, f"{dataset_name}_latest_epoch_{args.epochs}.pt")`
(lines 283-286). -/
def checkpointPath (a : Args) : List Char :=
  weightsDir ++ "\\".toList ++ datasetName a.dataset
    ++ "_latest_epoch_".toList ++ (toString a.epochs).toList ++ ".pt".toList

/-- Error raised by `tensor.to(torch.device('cuda'))` when CUDA is not
available. -/
def cudaUnavailableMsg : List Char :=
  "RuntimeError: CUDA unavailable".toList

/-- Timing one backend: line 300 moves the test tensors to the device,
which raises for `cuda` when CUDA is unavailable; the CPU backend always
succeeds. -/
def timeOnDevice (cudaAvailable : Bool) : Dev → Except (List Char) Event
  | .cpu => .ok (.timeBackend .cpu)
  | .cuda =>
      if cudaAvailable then .ok (.timeBackend .cuda)
      else .error cudaUnavailableMsg

/-- `for dev in device_list` (lines 293-329): successive backends are
timed until one raises, which aborts the whole loop. -/
def timingLoop (cudaAvailable : Bool) : List Dev → List Event × Option (List Char)
  | [] => ([], none)
  | d :: rest =>
      match timeOnDevice cudaAvailable d with
      | .ok e =>
          let r := timingLoop cudaAvailable rest
          (e :: r.1, r.2)
      | .error msg => ([], some msg)

/-- `device_list = ['cpu', 'cuda']` (line 291), with no availability
check. -/
def deviceList : List Dev := [.cpu, .cuda]

/-- The event trace and outcome of one program run, as a function of CUDA
availability and the parsed arguments. -/
def mainRun (cudaAvailable : Bool) (a : Args) : List Event × RunOutcome :=
  let pre : List Event :=
    Event.mkRunDir :: (if cudaAvailable then [Event.cudaProbeAlloc] else [])
  if a.dataset = 0 ∨ a.dataset = 1 ∨ a.dataset = 2 then
    let body : List Event :=
      Event.loadData ::
        ((List.range a.epochs).flatMap
            (fun i => [Event.trainEpoch (i + 1), Event.testEpoch (i + 1)]) ++
          (if a.saveModel then [Event.saveCheckpoint (checkpointPath a)]
           else []))
    if a.calcTime then
      match timingLoop cudaAvailable deviceList with
      | (evs, none) => (pre ++ body ++ evs, .completed)
      | (evs, some msg) => (pre ++ body ++ evs, .crashed msg)
    else (pre ++ body, .completed)
  else (pre, .exited 1)

/-- Arguments with the unsupported dataset selector `3`. -/
def argsSel3 : Args :=
  { dataset := 3, epochs := 1, saveModel := true, calcTime := false }

/-- Counterexample to C7 as stated: with CUDA available and dataset
selector 3, the run does exit with status 1 before any training, but the
trace already contains resource allocations — the run/log directory created
at import and the dummy CUDA tensor of lines 135-141 — before the
`sys.exit(1)`. -/
theorem main_invalid_selector_allocates_before_exit :
    mainRun true argsSel3
        = ([Event.mkRunDir, Event.cudaProbeAlloc], RunOutcome.exited 1) ∧
    Event.cudaProbeAlloc ∈ (mainRun true argsSel3).1 := by
  constructor
  · rfl
  · rw [show mainRun true argsSel3
        = ([Event.mkRunDir, Event.cudaProbeAlloc], RunOutcome.exited 1)
      from rfl]
    simp

/-- C7 as amended: for every dataset selector other than 0, 1 or 2, the
program terminates with exit status 1 before any training and before any
dataset loading — but not before the resource allocations that precede the
selector check (run directory at import; CUDA probe tensor when CUDA is
available). -/
theorem main_invalid_selector_exits_before_training (cuda : Bool) (a : Args)
    (h0 : a.dataset ≠ 0) (h1 : a.dataset ≠ 1) (h2 : a.dataset ≠ 2) :
    (mainRun cuda a).2 = RunOutcome.exited 1 ∧
    (∀ i, Event.trainEpoch i ∉ (mainRun cuda a).1) ∧
    Event.loadData ∉ (mainRun cuda a).1 := by
  have hcond : ¬ (a.dataset = 0 ∨ a.dataset = 1 ∨ a.dataset = 2) := by
    tauto
  unfold mainRun
  rw [if_neg hcond]
  cases cuda <;> simp

/-- Witness for the amended C7 at `cuda = true`, selector 3. -/
theorem main_invalid_selector_exits_before_training_witness :
    ((3 : ℤ) ≠ 0 ∧ (3 : ℤ) ≠ 1 ∧ (3 : ℤ) ≠ 2) ∧
    ((mainRun true argsSel3).2 = RunOutcome.exited 1 ∧
      (∀ i, Event.trainEpoch i ∉ (mainRun true argsSel3).1) ∧
      Event.loadData ∉ (mainRun true argsSel3).1) :=
  ⟨⟨by decide, by decide, by decide⟩,
    main_invalid_selector_exits_before_training true argsSel3
      (by decide) (by decide) (by decide)⟩

/-- Arguments with a valid selector and `calc_time` enabled. -/
def argsTime : Args :=
  { dataset := 0, epochs := 1, saveModel := true, calcTime := true }

/-- Counterexample to C8 as stated: with `calc_time` enabled and CUDA
unavailable, the timing harness does not skip the `cuda` backend and
continue — the run crashes (lines 290-302 contain no availability check or
exception handler), and no `cuda` timing is recorded. -/
theorem timing_cuda_unavailable_crashes_run :
    (mainRun false argsTime).2 = RunOutcome.crashed cudaUnavailableMsg ∧
    Event.timeBackend Dev.cuda ∉ (mainRun false argsTime).1 := by
  constructor
  · rfl
  · rw [show (mainRun false argsTime).1
        = [Event.mkRunDir, Event.loadData, Event.trainEpoch 1,
           Event.testEpoch 1, Event.saveCheckpoint (checkpointPath argsTime),
           Event.timeBackend Dev.cpu]
      from rfl]
    simp

/-- C8 as amended: with `calc_time` enabled the harness iterates over the
fixed list `['cpu', 'cuda']` unconditionally; when CUDA is unavailable the
attempt to move the tensors to `cuda` raises and the whole run fails (after
the CPU timing), rather than the backend being skipped; only when CUDA is
available does the run complete with both backends timed. -/
theorem timing_harness_does_not_skip_unavailable_backend (cuda : Bool)
    (a : Args) (hds : a.dataset = 0 ∨ a.dataset = 1 ∨ a.dataset = 2)
    (hct : a.calcTime = true) :
    (cuda = false →
      (mainRun cuda a).2 = RunOutcome.crashed cudaUnavailableMsg ∧
      Event.timeBackend Dev.cpu ∈ (mainRun cuda a).1 ∧
      Event.timeBackend Dev.cuda ∉ (mainRun cuda a).1) ∧
    (cuda = true →
      (mainRun cuda a).2 = RunOutcome.completed ∧
      Event.timeBackend Dev.cpu ∈ (mainRun cuda a).1 ∧
      Event.timeBackend Dev.cuda ∈ (mainRun cuda a).1) := by
  unfold mainRun
  rw [if_pos hds, hct]
  cases cuda <;>
    simp [timingLoop, deviceList, timeOnDevice]

/-- Witness for the amended C8 at `cuda = false`, `args = argsTime`. -/
theorem timing_harness_does_not_skip_unavailable_backend_witness :
    (argsTime.dataset = 0 ∨ argsTime.dataset = 1 ∨ argsTime.dataset = 2) ∧
    argsTime.calcTime = true ∧
    ((false = false →
      (mainRun false argsTime).2 = RunOutcome.crashed cudaUnavailableMsg ∧
      Event.timeBackend Dev.cpu ∈ (mainRun false argsTime).1 ∧
      Event.timeBackend Dev.cuda ∉ (mainRun false argsTime).1) ∧
    (false = true →
      (mainRun false argsTime).2 = RunOutcome.completed ∧
      Event.timeBackend Dev.cpu ∈ (mainRun false argsTime).1 ∧
      Event.timeBackend Dev.cuda ∈ (mainRun false argsTime).1)) :=
  ⟨Or.inl rfl, rfl,
    timing_harness_does_not_skip_unavailable_backend false argsTime
      (Or.inl rfl) rfl⟩

/-- C10: `--save-model` is `store_true` with `default=True`, so
`args.save_model` is `True` for every command line; consequently every run
with a valid dataset selector writes a checkpoint, to the hard-coded
absolute `D:\...\weights` path, which lies outside the timestamped
`experiments/<timestamp>` run directory for every timestamp. -/
theorem save_model_always_on_and_checkpoint_outside_run_dir
    (present cuda : Bool) (a : Args) (ts : List Char)
    (hsm : a.saveModel = saveModelValue present)
    (hds : a.dataset = 0 ∨ a.dataset = 1 ∨ a.dataset = 2) :
    saveModelValue present = true ∧
    Event.saveCheckpoint (checkpointPath a) ∈ (mainRun cuda a).1 ∧
    ¬ (runDirPath ts <+: checkpointPath a) := by
  have hsv : saveModelValue present = true := by
    cases present <;> rfl
  refine ⟨hsv, ?_, ?_⟩
  · unfold mainRun
    rw [if_pos hds, hsm, hsv]
    cases hc : a.calcTime
    · simp
    · rcases htl : timingLoop cuda deviceList with ⟨evs, err⟩
      cases err <;> simp [htl]
  · intro hpre
    have hexp : ("experiments/".toList) <+: checkpointPath a :=
      List.IsPrefix.trans ⟨ts, rfl⟩ hpre
    rcases hexp with ⟨t, ht⟩
    have hchar : ("experiments/".toList ++ t).headI = 'e' := by
      rw [show "experiments/".toList = 'e' :: "xperiments/".toList from rfl]
      rfl
    have hcp : (checkpointPath a).headI = 'D' := by
      unfold checkpointPath
      rw [show weightsDir
          = 'D' :: ":\\NCKHSV.2024-2025\\MultiMediapipe\\DD-Net-Pytorch\\weights".toList
        from rfl]
      rfl
    rw [ht] at hchar
    rw [hchar] at hcp
    exact absurd hcp (by decide)

/-- Witness for C10 at `present = false`, `cuda = true`, `args = argsTime`,
timestamp `"1700000000"`. -/
theorem save_model_always_on_and_checkpoint_outside_run_dir_witness :
    (argsTime.saveModel = saveModelValue false ∧
      (argsTime.dataset = 0 ∨ argsTime.dataset = 1 ∨ argsTime.dataset = 2)) ∧
    (saveModelValue false = true ∧
      Event.saveCheckpoint (checkpointPath argsTime) ∈ (mainRun true argsTime).1 ∧
      ¬ (runDirPath ("1700000000".toList) <+: checkpointPath argsTime)) :=
  ⟨⟨rfl, Or.inl rfl⟩,
    save_model_always_on_and_checkpoint_outside_run_dir false true argsTime
      ("1700000000".toList) rfl (Or.inl rfl)⟩

end DDNet
